import Mathlib

/-!
Shallow embedding of `lib/ansible/modules/cloud/amazon/lambda_version.py`
(the `lambda_version` Ansible module, class `LambdaVersion`).

The module is a synchronous wrapper over three remote calls of the AWS
Lambda control plane: `list_versions_by_function` (performed in
`__init__`, its outcome is an input `versions` here), `publish_version`
and `delete_function`.  Remote outcomes are passed in as explicit
oracle values (`PublishOutcome`, `DeleteOutcome`); the functions below
return both the Python function's result (normal return, or the
abnormal exit raised: `fail_json`, a `NameError` on an undefined
identifier, an `IndexError` on `pop` from an empty list) and the remote
request that was issued, if any.
-/

/-- A JSON-like value, the shape of the dicts boto3 returns. -/
inductive JVal where
  | str : String → JVal
  | int : Int → JVal
  | bool : Bool → JVal
  | dict : List (String × JVal) → JVal
  | list : List JVal → JVal

/-- One entry of `list_versions_by_function`'s `Versions` list: a dict that
always carries the keys `Version` and `LastModified` (read by the module),
plus the remaining fields.  `LastModified` is the ISO-8601 timestamp
string boto3 parsing yields, compared as a string by the module. -/
structure VersionEntry where
  Version : String
  LastModified : String
  rest : List (String × JVal)

/-- The dict the entry stands for (the module passes the whole entry to
`camel_dict_to_snake_dict`). -/
def VersionEntry.toDict (e : VersionEntry) : List (String × JVal) :=
  ("Version", JVal.str e.Version) :: ("LastModified", JVal.str e.LastModified) :: e.rest

/-- Modelled from the spec: the key-name conversion of
`camel_dict_to_snake_dict` (from `ansible.module_utils.ec2`, which is not
under `src/`): a remote camel-case field name becomes a local snake-case
one — an underscore is inserted at each transition from a lower-case
letter or digit to an upper-case letter, and the whole name is
lower-cased. -/
def camel_to_snake (s : String) : String :=
  ⟨go s.data⟩
where
  go : List Char → List Char
    | [] => []
    | [c] => [c.toLower]
    | a :: b :: rest =>
        if (a.isLower || a.isDigit) && b.isUpper then
          a.toLower :: '_' :: go (b :: rest)
        else
          a.toLower :: go (b :: rest)

mutual

/-- Modelled from the spec: `camel_dict_to_snake_dict` (from
`ansible.module_utils.ec2`, not under `src/`).  Every key of the dict is
converted by `camel_to_snake`; a dict or list value is converted
recursively unless its key is in the ignore list, in which case the
value is kept verbatim; the ignore list is not propagated to nested
dicts.  The call sites under `src/` pass the ignore list
`['Environment']`, and the module's own RETURN documentation shows the
nested `Variables` key of `environment` kept in camel case. -/
def camel_dict_to_snake_dict : List (String × JVal) → List String → List (String × JVal)
  | [], _ => []
  | (k, v) :: rest, ignore =>
      (camel_to_snake k, if k ∈ ignore then v else snake_value v) ::
        camel_dict_to_snake_dict rest ignore

/-- Recursive value conversion of `camel_dict_to_snake_dict`: dicts and
lists are walked, leaf values are kept. -/
def snake_value : JVal → JVal
  | .dict d => .dict (camel_dict_to_snake_dict d [])
  | .list l => .list (snake_list l)
  | v => v

/-- `camel_dict_to_snake_dict`'s handling of list values. -/
def snake_list : List JVal → List JVal
  | [] => []
  | v :: rest => snake_value v :: snake_list rest

end

/-- The spec's uniform reading of the conversion ("applied uniformly to
the response structure", "applied to every nested field"): the same
conversion with no exempted key. -/
def camel_dict_to_snake_dict_uniform (d : List (String × JVal)) : List (String × JVal) :=
  camel_dict_to_snake_dict d []

/-- `del(result['ResponseMetadata'])`: the module removes the transport
metadata key from the `publish_version` response before converting it
(boto3 responses always carry that key). -/
def eraseKey (d : List (String × JVal)) (k : String) : List (String × JVal) :=
  d.filter (fun kv => kv.1 ≠ k)

/-- The module's parameters, as validated by `argument_spec` in `main`:
`function_name` is required, `state` is `present` or `absent` (default
`present`), the rest default to `None`. -/
structure ModuleParams where
  function_name : String
  state : String
  function_version : Option String
  code_sha_256 : Option String
  revision_id : Option String
  version_description : Option String

/-- Python truthiness of an optional string parameter: `None` and the
empty string are falsy. -/
def truthy : Option String → Bool
  | none => false
  | some s => s ≠ ""

/-- Outcome of the remote `publish_version` call, were it issued. -/
inductive PublishOutcome where
  | ok (resp : List (String × JVal))
  | preconditionFailed
  | invalidParameterValue
  | clientError

/-- Outcome of the remote `delete_function` call, were it issued.  The
module catches `ResourceNotFoundException`, `ResourceConflictException`
and generic `ClientError` with one handler, so a single error case
suffices. -/
inductive DeleteOutcome where
  | ok
  | clientError

/-- Abnormal exits of the Python code: `module.fail_json` /
`fail_json_aws` (fatal, with message), a `NameError` raised on an
undefined identifier, and an `IndexError` raised by `pop` on an empty
list. -/
inductive PyError where
  | failJson (msg : String)
  | nameError (name : String)
  | indexError
deriving DecidableEq, Repr

/-- The result dict of a successful run: `changed`, plus the optional
`version` and `msg` keys. -/
structure RunResult where
  changed : Bool
  version : Option (List (String × JVal))
  msg : Option String

/-- The sort key of `create_version`'s
`self.versions.sort(key=lambda k: str(datetime.max) if k['Version'] == '$LATEST' else k['LastModified'])`;
`str(datetime.max)` is the string below. -/
def sortKey (e : VersionEntry) : String :=
  if e.Version == "$LATEST" then "9999-12-31 23:59:59.999999" else e.LastModified

/-- `self.versions.sort(key=...)`: Python's stable ascending sort by
`sortKey`; any stable sort computes it, we use insertion sort.  Python
compares strings lexicographically by code point, which is the
lexicographic order on their character lists, so keys are compared
through `String.data`. -/
def sortVersions (vs : List VersionEntry) : List VersionEntry :=
  vs.insertionSort (fun a b => (sortKey a).data ≤ (sortKey b).data)

/-- Python `list.pop()`: removes and returns the last element, raising
`IndexError` (here: `none`) on an empty list. -/
def pyPop (l : List VersionEntry) : Option (VersionEntry × List VersionEntry) :=
  match l.getLast? with
  | some x => some (x, l.dropLast)
  | none => none

/-- `LambdaVersion.check_version_exists`: true when some fetched entry's
`Version` equals the supplied identifier (the Python function returns
`True` or falls through to `None`; both branches are modelled by the
boolean). -/
def check_version_exists (versions : List VersionEntry) (function_version : String) : Bool :=
  versions.any (fun item => item.Version == function_version)

/-- The keyword arguments `create_version` assembles for
`publish_version`: `FunctionName` always, the other three only when the
corresponding parameter is truthy. -/
structure PublishParams where
  FunctionName : String
  Description : Option String
  CodeSha256 : Option String
  RevisionId : Option String
deriving DecidableEq, Repr

/-- `LambdaVersion.create_version`.  Returns the Python outcome (normal
result or abnormal exit) together with the `publish_version` request
issued, if any.  Notes kept from the source:
* the sort puts `$LATEST` last via the synthetic maximum key;
* `latest_version = self.versions.pop()` then
  `last_version = self.versions.pop()`; a `pop` on an empty list raises
  `IndexError`;
* Python's `latest_version['LastModified'] > last_version['LastModified']`
  is `last_version.LastModified < latest_version.LastModified`;
* the generic `ClientError` handler reads the undefined identifier
  `module` (the method only has `self.module`), so it raises
  `NameError` instead of calling `fail_json_aws`;
* on success `ResponseMetadata` is deleted from the response and the
  rest is snake-cased with ignore list `['Environment']`;
* the `else` branch snake-cases `latest_version` — the entry popped
  last, i.e. the `$LATEST` entry.

The part after the two pops is factored into `create_version_body`. -/
def create_version_body (p : ModuleParams) (publish : PublishOutcome)
    (latest_version last_version : VersionEntry) :
    Except PyError RunResult × Option PublishParams :=
  if last_version.LastModified.data < latest_version.LastModified.data then
    let req : PublishParams :=
      { FunctionName := p.function_name
        Description := if truthy p.version_description then p.version_description else none
        CodeSha256 := if truthy p.code_sha_256 then p.code_sha_256 else none
        RevisionId := if truthy p.revision_id then p.revision_id else none }
    match publish with
    | .preconditionFailed =>
        (.ok { changed := false, version := none,
               msg := some "revision_id does not match $LATEST" }, some req)
    | .invalidParameterValue =>
        (.ok { changed := false, version := none,
               msg := some "code_sha_256 does not match $LATEST" }, some req)
    | .clientError =>
        (.error (.nameError "module"), some req)
    | .ok result =>
        (.ok { changed := true,
               version := some (camel_dict_to_snake_dict
                 (eraseKey result "ResponseMetadata") ["Environment"]),
               msg := none }, some req)
  else
    (.ok { changed := false,
           version := some (camel_dict_to_snake_dict latest_version.toDict ["Environment"]),
           msg := none }, none)

def create_version (p : ModuleParams) (versions : List VersionEntry)
    (publish : PublishOutcome) : Except PyError RunResult × Option PublishParams :=
  match pyPop (sortVersions versions) with
  | none => (.error .indexError, none)
  | some (latest_version, rest) =>
    match pyPop rest with
    | none => (.error .indexError, none)
    | some (last_version, _) => create_version_body p publish latest_version last_version

/-- `LambdaVersion.delete_version`.  Returns the Python outcome together
with the `Qualifier` of the `delete_function` request issued, if any.
The error handler's message interpolates the undefined identifiers
`function_version` and `function_name` (the method only has
`self.module.params['function_version']` and `self.function_name`), so
it raises `NameError` instead of calling `fail_json_aws`. -/
def delete_version (p : ModuleParams) (versions : List VersionEntry)
    (delete : DeleteOutcome) : Except PyError RunResult × Option String :=
  if ¬ truthy p.function_version then
    (.error (.failJson "Cannot delete a version without function_version parameter"), none)
  else
    let fv := p.function_version.getD ""
    if ¬ check_version_exists versions fv then
      (.ok { changed := false, version := none, msg := none }, none)
    else
      match delete with
      | .ok => (.ok { changed := true, version := none, msg := none }, some fv)
      | .clientError => (.error (.nameError "function_version"), some fv)

/-- What one whole run produced: the Python outcome and the mutating
remote requests issued along the way. -/
structure RunTrace where
  result : Except PyError RunResult
  publishIssued : Option PublishParams
  deleteIssued : Option String

/-- `LambdaVersion.run`.  `versions` is what `__init__` stored: `none`
models the `ResourceNotFoundException` path (`self.versions = None`);
`if not self.versions` is true for both `None` and the empty list. -/
def LambdaVersion.run (p : ModuleParams) (versions : Option (List VersionEntry))
    (publish : PublishOutcome) (delete : DeleteOutcome) : RunTrace :=
  let vs := versions.getD []
  if vs.isEmpty then
    if p.state == "present" then
      { result := .error (.failJson
          ("Cannot create a version for function " ++ p.function_name ++
           ".  Function does not exist."))
        publishIssued := none, deleteIssued := none }
    else
      { result := .ok { changed := false, version := none, msg := none }
        publishIssued := none, deleteIssued := none }
  else
    if p.state == "present" then
      let r := create_version p vs publish
      { result := r.1, publishIssued := r.2, deleteIssued := none }
    else
      let r := delete_version p vs delete
      { result := r.1, publishIssued := none, deleteIssued := r.2 }

/-! Concrete inputs used to instantiate the theorems below. -/

/-- A published version entry with identifier `"1"`. -/
def entPub1 : VersionEntry :=
  { Version := "1", LastModified := "2019-12-30T14:25:24.026+0000", rest := [] }

/-- A `$LATEST` entry whose timestamp equals `entPub1`'s. -/
def entLatestEq : VersionEntry :=
  { Version := "$LATEST", LastModified := "2019-12-30T14:25:24.026+0000", rest := [] }

/-- A `$LATEST` entry strictly newer than `entPub1`. -/
def entLatestNew : VersionEntry :=
  { Version := "$LATEST", LastModified := "2020-01-02T00:00:00.000+0000", rest := [] }

/-- A published version entry with identifier `"3"`. -/
def entPub3 : VersionEntry :=
  { Version := "3", LastModified := "2019-11-01T00:00:00.000+0000", rest := [] }

/-- Parameters of a plain `state=present` run. -/
def paramsPresent : ModuleParams :=
  { function_name := "MyFunction", state := "present", function_version := none,
    code_sha_256 := none, revision_id := none, version_description := none }

/-- Parameters of a `state=absent` run asking for version `"3"`. -/
def paramsAbsent3 : ModuleParams :=
  { function_name := "MyFunction", state := "absent", function_version := some "3",
    code_sha_256 := none, revision_id := none, version_description := none }

/-- Parameters of a `state=absent` run asking for `"$LATEST"`. -/
def paramsAbsentLatest : ModuleParams :=
  { function_name := "MyFunction", state := "absent", function_version := some "$LATEST",
    code_sha_256 := none, revision_id := none, version_description := none }

/-- Parameters of a `state=absent` run with no `function_version`. -/
def paramsAbsentNone : ModuleParams :=
  { function_name := "MyFunction", state := "absent", function_version := none,
    code_sha_256 := none, revision_id := none, version_description := none }

/-- A sample `publish_version` response, with a camel-cased nested dict
under `Environment` and the transport metadata key. -/
def respSample : List (String × JVal) :=
  [("FunctionName", JVal.str "MyFunction"),
   ("CodeSha256", JVal.str "fNGeOhSxAjcYuNyGJaC8XbYFghjTXjpUuLttdt5xkPk="),
   ("Version", JVal.str "2"),
   ("Environment", JVal.dict [("Variables", JVal.dict [("MY_VAR", JVal.str "my_value")])]),
   ("TracingConfig", JVal.dict [("Mode", JVal.str "PassThrough")]),
   ("ResponseMetadata", JVal.dict [("RequestId", JVal.str "abc")])]

/-! Ordering facts about the sort performed by `create_version`. -/

/-- The comparison the sort uses. -/
abbrev keyLE (a b : VersionEntry) : Prop := (sortKey a).data ≤ (sortKey b).data

instance : IsTotal VersionEntry keyLE :=
  ⟨fun a b => le_total (sortKey a).data (sortKey b).data⟩

instance : IsTrans VersionEntry keyLE :=
  ⟨fun _ _ _ hab hbc => le_trans hab hbc⟩

lemma sortVersions_sorted (vs : List VersionEntry) :
    (sortVersions vs).Sorted keyLE :=
  List.sorted_insertionSort keyLE vs

lemma sortVersions_perm (vs : List VersionEntry) : (sortVersions vs).Perm vs :=
  List.perm_insertionSort keyLE vs

/-- In a sorted list the last element is a maximum for the sort key. -/
lemma sorted_getLast?_max {l : List VersionEntry} (h : l.Sorted keyLE)
    {m : VersionEntry} (hm : l.getLast? = some m) :
    ∀ x ∈ l, (sortKey x).data ≤ (sortKey m).data := by
  induction l with
  | nil => simp at hm
  | cons a t ih =>
    cases t with
    | nil =>
      simp only [List.getLast?_singleton, Option.some.injEq] at hm
      subst hm
      intro x hx
      simp only [List.mem_singleton] at hx
      subst hx
      exact le_refl _
    | cons b t2 =>
      rw [List.getLast?_cons_cons] at hm
      rw [List.sorted_cons] at h
      intro x hx
      rcases List.mem_cons.mp hx with hxa | hxt
      · subst hxa
        exact h.1 m (List.mem_of_getLast?_eq_some hm)
      · exact ih h.2 hm x hxt

/-- The situation `create_version` is specified for: the fetched list is
the `$LATEST` entry plus at least one published version, and every
published timestamp is below the synthetic maximum key.  Then the first
pop yields the `$LATEST` entry, the second pop yields a
most-recently-modified published version, and `create_version` reduces
to the comparison body on these two entries. -/
lemma create_version_pops
    {vs : List VersionEntry} {latest : VersionEntry} {published : List VersionEntry}
    (hperm : vs.Perm (latest :: published))
    (hlat : latest.Version = "$LATEST")
    (hpub : ∀ q ∈ published, q.Version ≠ "$LATEST")
    (hne : published ≠ [])
    (hts : ∀ q ∈ published, q.LastModified.data < "9999-12-31 23:59:59.999999".data) :
    ∃ m, m ∈ published ∧ (∀ q ∈ published, q.LastModified.data ≤ m.LastModified.data) ∧
      ∀ (p : ModuleParams) (publish : PublishOutcome),
        create_version p vs publish = create_version_body p publish latest m := by
  have hs : (sortVersions vs).Sorted keyLE := sortVersions_sorted vs
  have hsp : (sortVersions vs).Perm (latest :: published) := (sortVersions_perm vs).trans hperm
  have hkey_lat : sortKey latest = "9999-12-31 23:59:59.999999" := by
    simp [sortKey, hlat]
  have hkey_pub : ∀ q ∈ published, sortKey q = q.LastModified := by
    intro q hq
    simp [sortKey, hpub q hq]
  have hsne : sortVersions vs ≠ [] := by
    intro h
    rw [h] at hsp
    simpa using hsp.length_eq
  obtain ⟨m0, hm0⟩ : ∃ m0, (sortVersions vs).getLast? = some m0 := by
    cases hl : (sortVersions vs).getLast? with
    | some m0 => exact ⟨m0, rfl⟩
    | none => exact absurd (List.getLast?_eq_none_iff.mp hl) hsne
  have hlat_mem : latest ∈ sortVersions vs := hsp.mem_iff.mpr (List.mem_cons_self _ _)
  have hmax0 := sorted_getLast?_max hs hm0 latest hlat_mem
  have hm0_mem : m0 ∈ latest :: published :=
    hsp.mem_iff.mp (List.mem_of_getLast?_eq_some hm0)
  have hm0_eq : m0 = latest := by
    rcases List.mem_cons.mp hm0_mem with h | h
    · exact h
    · exfalso
      rw [hkey_lat, hkey_pub m0 h] at hmax0
      exact absurd (lt_of_le_of_lt hmax0 (hts m0 h)) (lt_irrefl _)
  subst hm0_eq
  have hdecomp : (sortVersions vs).dropLast ++ [m0] = sortVersions vs :=
    List.dropLast_append_getLast? m0 (Option.mem_def.mpr hm0)
  have hrest_perm : ((sortVersions vs).dropLast).Perm published := by
    have h1 : ((sortVersions vs).dropLast ++ [m0]).Perm (m0 :: published) := by
      rw [hdecomp]; exact hsp
    exact ((List.perm_append_singleton m0 _).symm.trans h1).cons_inv
  have hrest_ne : (sortVersions vs).dropLast ≠ [] := by
    intro h
    rw [h] at hrest_perm
    have hlen := hrest_perm.length_eq
    simp only [List.length_nil] at hlen
    exact hne (List.length_eq_zero.mp hlen.symm)
  obtain ⟨m, hm⟩ : ∃ m, ((sortVersions vs).dropLast).getLast? = some m := by
    cases hl : ((sortVersions vs).dropLast).getLast? with
    | some m => exact ⟨m, rfl⟩
    | none => exact absurd (List.getLast?_eq_none_iff.mp hl) hrest_ne
  have hrest_sorted : ((sortVersions vs).dropLast).Sorted keyLE :=
    List.Pairwise.sublist (List.dropLast_sublist _) hs
  have hm_mem : m ∈ published :=
    hrest_perm.mem_iff.mp (List.mem_of_getLast?_eq_some hm)
  have hmmax : ∀ q ∈ published, q.LastModified.data ≤ m.LastModified.data := by
    intro q hq
    have hqr : q ∈ (sortVersions vs).dropLast := hrest_perm.mem_iff.mpr hq
    have := sorted_getLast?_max hrest_sorted hm q hqr
    rwa [hkey_pub q hq, hkey_pub m hm_mem] at this
  refine ⟨m, hm_mem, hmmax, ?_⟩
  intro p publish
  have hpop1 : pyPop (sortVersions vs) = some (m0, (sortVersions vs).dropLast) := by
    unfold pyPop
    rw [hm0]
  have hpop2 : pyPop ((sortVersions vs).dropLast) =
      some (m, ((sortVersions vs).dropLast).dropLast) := by
    unfold pyPop
    rw [hm]
  unfold create_version
  simp only [hpop1, hpop2]

/-- The comparison body issues a publish request exactly when the popped
`$LATEST` timestamp is strictly greater. -/
lemma create_version_body_issued_iff (p : ModuleParams) (publish : PublishOutcome)
    (latest last : VersionEntry) :
    (create_version_body p publish latest last).2.isSome ↔
      last.LastModified.data < latest.LastModified.data := by
  unfold create_version_body
  by_cases h : last.LastModified.data < latest.LastModified.data
  · cases publish <;> simp [h]
  · simp [h]

/-- On a successful publish the body returns `changed=true` with the
snake-cased response (metadata removed). -/
lemma create_version_body_ok (p : ModuleParams) (resp : List (String × JVal))
    (latest last : VersionEntry) (h : last.LastModified.data < latest.LastModified.data) :
    create_version_body p (.ok resp) latest last =
      (.ok { changed := true,
             version := some (camel_dict_to_snake_dict
               (eraseKey resp "ResponseMetadata") ["Environment"]),
             msg := none },
       some { FunctionName := p.function_name
              Description := if truthy p.version_description then p.version_description else none
              CodeSha256 := if truthy p.code_sha_256 then p.code_sha_256 else none
              RevisionId := if truthy p.revision_id then p.revision_id else none }) := by
  unfold create_version_body
  rw [if_pos h]

/-- When the popped `$LATEST` timestamp is not strictly greater the body
takes the `else` branch: no request, `changed=false`, and the snapshot
snake-cased from the popped `$LATEST` entry. -/
lemma create_version_body_stale (p : ModuleParams) (publish : PublishOutcome)
    (latest last : VersionEntry) (h : ¬ last.LastModified.data < latest.LastModified.data) :
    create_version_body p publish latest last =
      (.ok { changed := false,
             version := some (camel_dict_to_snake_dict latest.toDict ["Environment"]),
             msg := none }, none) := by
  unfold create_version_body
  rw [if_neg h]

/-- Guard-precondition failures of the publish call are soft results. -/
lemma create_version_body_guards (p : ModuleParams) (latest last : VersionEntry)
    (h : last.LastModified.data < latest.LastModified.data) :
    (create_version_body p .preconditionFailed latest last).1 =
      .ok { changed := false, version := none,
            msg := some "revision_id does not match $LATEST" } ∧
    (create_version_body p .invalidParameterValue latest last).1 =
      .ok { changed := false, version := none,
            msg := some "code_sha_256 does not match $LATEST" } := by
  constructor
  · unfold create_version_body
    rw [if_pos h]
  · unfold create_version_body
    rw [if_pos h]

/-- A generic `ClientError` of the publish call hits the handler that
reads the undefined identifier `module`. -/
lemma create_version_body_client_error (p : ModuleParams) (latest last : VersionEntry)
    (h : last.LastModified.data < latest.LastModified.data) :
    (create_version_body p .clientError latest last).1 =
      .error (.nameError "module") := by
  unfold create_version_body
  rw [if_pos h]

/-- `run` with `state=present` on a non-empty fetched list dispatches to
`create_version`. -/
lemma run_present_eq (p : ModuleParams) (vs : List VersionEntry)
    (publish : PublishOutcome) (delete : DeleteOutcome)
    (hstate : p.state = "present") (hne : vs ≠ []) :
    LambdaVersion.run p (some vs) publish delete =
      { result := (create_version p vs publish).1,
        publishIssued := (create_version p vs publish).2,
        deleteIssued := none } := by
  cases vs with
  | nil => exact absurd rfl hne
  | cons a t =>
    unfold LambdaVersion.run
    simp [hstate]

/-- `run` with `state=absent` on a non-empty fetched list dispatches to
`delete_version`. -/
lemma run_absent_eq (p : ModuleParams) (vs : List VersionEntry)
    (publish : PublishOutcome) (delete : DeleteOutcome)
    (hstate : p.state = "absent") (hne : vs ≠ []) :
    LambdaVersion.run p (some vs) publish delete =
      { result := (delete_version p vs delete).1,
        publishIssued := none,
        deleteIssued := (delete_version p vs delete).2 } := by
  cases vs with
  | nil => exact absurd rfl hne
  | cons a t =>
    unfold LambdaVersion.run
    simp [hstate]

/-- With a truthy `function_version` parameter, `delete_version` is the
existence check followed by the delete call. -/
lemma delete_version_eq (p : ModuleParams) (vs : List VersionEntry)
    (delete : DeleteOutcome) (fv : String)
    (hfv : p.function_version = some fv) (hfvne : fv ≠ "") :
    delete_version p vs delete =
      if check_version_exists vs fv then
        (match delete with
         | .ok => (.ok { changed := true, version := none, msg := none }, some fv)
         | .clientError => (.error (.nameError "function_version"), some fv))
      else
        (.ok { changed := false, version := none, msg := none }, none) := by
  unfold delete_version
  rw [hfv]
  by_cases h : check_version_exists vs fv <;> simp [truthy, hfvne, h]

/-- Keys are converted and values recursively converted except under
ignored keys: `camel_dict_to_snake_dict` field by field. -/
lemma camel_dict_to_snake_dict_eq_map (d : List (String × JVal)) (ignore : List String) :
    camel_dict_to_snake_dict d ignore =
      d.map (fun kv =>
        (camel_to_snake kv.1, if kv.1 ∈ ignore then kv.2 else snake_value kv.2)) := by
  induction d with
  | nil => rfl
  | cons kv rest ih =>
    cases kv
    simp [camel_dict_to_snake_dict, ih]

/-- C1: for every `state=present` run on a version list made of the
`$LATEST` entry plus at least one published version (all published
timestamps below the synthetic maximum sort key), the sort orders
`$LATEST` last, and a publish request is issued if and only if the
actual `LastModified` of `$LATEST` is strictly greater than the actual
`LastModified` of the most-recently-modified published version; when the
publish call succeeds, the result is `changed=true` carrying the newly
published version snapshot. -/
theorem C1_publish_iff_latest_strictly_newer
    (pm : ModuleParams) (publish : PublishOutcome) (delete : DeleteOutcome)
    (vs published : List VersionEntry) (latest : VersionEntry)
    (hstate : pm.state = "present")
    (hperm : vs.Perm (latest :: published))
    (hlat : latest.Version = "$LATEST")
    (hpub : ∀ q ∈ published, q.Version ≠ "$LATEST")
    (hne : published ≠ [])
    (hts : ∀ q ∈ published, q.LastModified.data < "9999-12-31 23:59:59.999999".data) :
    ∃ m ∈ published,
      (∀ q ∈ published, q.LastModified.data ≤ m.LastModified.data) ∧
      ((LambdaVersion.run pm (some vs) publish delete).publishIssued.isSome ↔
        m.LastModified.data < latest.LastModified.data) ∧
      (∀ resp, publish = .ok resp → m.LastModified.data < latest.LastModified.data →
        (LambdaVersion.run pm (some vs) publish delete).result =
          .ok { changed := true,
                version := some (camel_dict_to_snake_dict
                  (eraseKey resp "ResponseMetadata") ["Environment"]),
                msg := none }) := by
  obtain ⟨m, hmem, hmax, hcv⟩ := create_version_pops hperm hlat hpub hne hts
  have hvs_ne : vs ≠ [] := by
    intro h
    rw [h] at hperm
    simpa using hperm.length_eq
  rw [run_present_eq pm vs publish delete hstate hvs_ne]
  refine ⟨m, hmem, hmax, ?_, ?_⟩
  · show (create_version pm vs publish).2.isSome ↔ _
    rw [hcv pm publish]
    exact create_version_body_issued_iff pm publish latest m
  · intro resp hresp hlt
    subst hresp
    show (create_version pm vs (.ok resp)).1 = _
    rw [hcv pm (.ok resp), create_version_body_ok pm resp latest m hlt]

/-- C2 (amended): when `$LATEST`'s `LastModified` is not strictly greater
than the most recent published version's, no publish request is issued
and the result is `changed=false` — but the snapshot it carries is the
snake-cased `$LATEST` entry itself, not the latest published version. -/
theorem C2_stale_returns_latest_entry_snapshot
    (pm : ModuleParams) (publish : PublishOutcome) (delete : DeleteOutcome)
    (vs published : List VersionEntry) (latest : VersionEntry)
    (hstate : pm.state = "present")
    (hperm : vs.Perm (latest :: published))
    (hlat : latest.Version = "$LATEST")
    (hpub : ∀ q ∈ published, q.Version ≠ "$LATEST")
    (hne : published ≠ [])
    (hts : ∀ q ∈ published, q.LastModified.data < "9999-12-31 23:59:59.999999".data)
    (hstale : ∃ q ∈ published, latest.LastModified.data ≤ q.LastModified.data) :
    (LambdaVersion.run pm (some vs) publish delete).publishIssued = none ∧
    (LambdaVersion.run pm (some vs) publish delete).result =
      .ok { changed := false,
            version := some (camel_dict_to_snake_dict latest.toDict ["Environment"]),
            msg := none } := by
  obtain ⟨m, hmem, hmax, hcv⟩ := create_version_pops hperm hlat hpub hne hts
  obtain ⟨q, hq, hle⟩ := hstale
  have hnot : ¬ m.LastModified.data < latest.LastModified.data :=
    not_lt.mpr (le_trans hle (hmax q hq))
  have hvs_ne : vs ≠ [] := by
    intro h
    rw [h] at hperm
    simpa using hperm.length_eq
  rw [run_present_eq pm vs publish delete hstate hvs_ne]
  constructor
  · show (create_version pm vs publish).2 = none
    rw [hcv pm publish, create_version_body_stale pm publish latest m hnot]
  · show (create_version pm vs publish).1 = _
    rw [hcv pm publish, create_version_body_stale pm publish latest m hnot]

/-- C2 counterexample: with one published version `"1"` and a `$LATEST`
entry of equal timestamp, the run is `changed=false` but the carried
snapshot is the `$LATEST` entry (its `version` field reads `$LATEST`),
not the snapshot of version `"1"` the claim promises. -/
theorem C2_counterexample_snapshot_is_latest_not_published :
    (LambdaVersion.run paramsPresent (some [entPub1, entLatestEq]) (.ok respSample) .ok).result =
      .ok { changed := false,
            version := some (camel_dict_to_snake_dict entLatestEq.toDict ["Environment"]),
            msg := none } ∧
    camel_dict_to_snake_dict entLatestEq.toDict ["Environment"] =
      [("version", JVal.str "$LATEST"),
       ("last_modified", JVal.str "2019-12-30T14:25:24.026+0000")] ∧
    camel_dict_to_snake_dict entLatestEq.toDict ["Environment"] ≠
      camel_dict_to_snake_dict entPub1.toDict ["Environment"] := by
  refine ⟨rfl, rfl, ?_⟩
  intro h
  have h1 : (camel_dict_to_snake_dict entPub1.toDict ["Environment"]).head? =
      some ("version", JVal.str "1") := rfl
  rw [← h] at h1
  have h2 : (camel_dict_to_snake_dict entLatestEq.toDict ["Environment"]).head? =
      some ("version", JVal.str "$LATEST") := rfl
  rw [h2] at h1
  simp only [Option.some.injEq, Prod.mk.injEq, JVal.str.injEq, true_and] at h1
  exact absurd h1 (by decide)

/-- C3: a guard-precondition failure of the publish call
(`PreconditionFailedException` for a revision-id mismatch,
`InvalidParameterValueException` for a code-hash mismatch) does not halt
the run: it returns a soft `changed=false` result whose message names
the mismatched guard. -/
theorem C3_guard_mismatch_is_soft_noop
    (pm : ModuleParams) (delete : DeleteOutcome)
    (vs published : List VersionEntry) (latest : VersionEntry)
    (hstate : pm.state = "present")
    (hperm : vs.Perm (latest :: published))
    (hlat : latest.Version = "$LATEST")
    (hpub : ∀ q ∈ published, q.Version ≠ "$LATEST")
    (hne : published ≠ [])
    (hts : ∀ q ∈ published, q.LastModified.data < "9999-12-31 23:59:59.999999".data)
    (hnew : ∀ q ∈ published, q.LastModified.data < latest.LastModified.data) :
    (LambdaVersion.run pm (some vs) .preconditionFailed delete).result =
      .ok { changed := false, version := none,
            msg := some "revision_id does not match $LATEST" } ∧
    (LambdaVersion.run pm (some vs) .invalidParameterValue delete).result =
      .ok { changed := false, version := none,
            msg := some "code_sha_256 does not match $LATEST" } := by
  obtain ⟨m, hmem, hmax, hcv⟩ := create_version_pops hperm hlat hpub hne hts
  have hlt := hnew m hmem
  have hvs_ne : vs ≠ [] := by
    intro h
    rw [h] at hperm
    simpa using hperm.length_eq
  constructor
  · rw [run_present_eq pm vs .preconditionFailed delete hstate hvs_ne]
    show (create_version pm vs .preconditionFailed).1 = _
    rw [hcv pm .preconditionFailed]
    exact (create_version_body_guards pm latest m hlt).1
  · rw [run_present_eq pm vs .invalidParameterValue delete hstate hvs_ne]
    show (create_version pm vs .invalidParameterValue).1 = _
    rw [hcv pm .invalidParameterValue]
    exact (create_version_body_guards pm latest m hlt).2

/-- C4: a `state=absent` run on an existing function is `changed=false`
with no delete request when the requested identifier is not in the
fetched version set, and `changed=true` when it is present and the
delete call succeeds. -/
theorem C4_absent_delete_idempotent
    (pm : ModuleParams) (vs : List VersionEntry) (publish : PublishOutcome) (fv : String)
    (hstate : pm.state = "absent") (hne : vs ≠ [])
    (hfv : pm.function_version = some fv) (hfvne : fv ≠ "") :
    (check_version_exists vs fv = false →
      ∀ delete, LambdaVersion.run pm (some vs) publish delete =
        { result := .ok { changed := false, version := none, msg := none },
          publishIssued := none, deleteIssued := none }) ∧
    (check_version_exists vs fv = true →
      (LambdaVersion.run pm (some vs) publish .ok).result =
        .ok { changed := true, version := none, msg := none } ∧
      (LambdaVersion.run pm (some vs) publish .ok).deleteIssued = some fv) := by
  constructor
  · intro hchk delete
    rw [run_absent_eq pm vs publish delete hstate hne,
        delete_version_eq pm vs delete fv hfv hfvne, if_neg (by simp [hchk])]
  · intro hchk
    rw [run_absent_eq pm vs publish .ok hstate hne,
        delete_version_eq pm vs .ok fv hfv hfvne, if_pos (by simp [hchk])]
    exact ⟨rfl, rfl⟩

/-- C5: with an empty (or absent) fetched version set, `state=present`
fails with the function-does-not-exist error while `state=absent`
succeeds as a `changed=false` no-op with no remote request. -/
theorem C5_no_versions_dispatch
    (pm : ModuleParams) (publish : PublishOutcome) (delete : DeleteOutcome)
    (versions : Option (List VersionEntry))
    (hempty : versions = none ∨ versions = some []) :
    (pm.state = "present" →
      (LambdaVersion.run pm versions publish delete).result =
        .error (.failJson ("Cannot create a version for function " ++ pm.function_name ++
          ".  Function does not exist."))) ∧
    (pm.state = "absent" →
      LambdaVersion.run pm versions publish delete =
        { result := .ok { changed := false, version := none, msg := none },
          publishIssued := none, deleteIssued := none }) := by
  have hvs : (versions.getD []).isEmpty = true := by
    rcases hempty with h | h <;> subst h <;> rfl
  constructor <;> intro hstate <;>
    · unfold LambdaVersion.run
      rw [hstate]
      simp [hvs]

/-- C6 (amended): a `state=absent` run without a `function_version`
parameter fails with the missing-parameter error provided the function
exists (the fetched version set is non-empty); when no versions exist,
`run` returns `changed=false` before the parameter is ever checked. -/
theorem C6_missing_parameter_fails_when_function_exists
    (pm : ModuleParams) (vs : List VersionEntry)
    (publish : PublishOutcome) (delete : DeleteOutcome)
    (hstate : pm.state = "absent") (hne : vs ≠ [])
    (hmissing : truthy pm.function_version = false) :
    (LambdaVersion.run pm (some vs) publish delete).result =
      .error (.failJson "Cannot delete a version without function_version parameter") := by
  rw [run_absent_eq pm vs publish delete hstate hne]
  show (delete_version pm vs delete).1 = _
  unfold delete_version
  simp [hmissing]

/-- C6 counterexample: `state=absent` with no `function_version` on a
function with no versions at all returns `changed=false` — it does not
fail with the missing-parameter error, refuting "regardless of whether
the named function exists". -/
theorem C6_counterexample_no_function_is_noop :
    (LambdaVersion.run paramsAbsentNone none (.ok respSample) .ok).result =
      .ok { changed := false, version := none, msg := none } ∧
    (LambdaVersion.run paramsAbsentNone none (.ok respSample) .ok).result ≠
      .error (.failJson "Cannot delete a version without function_version parameter") := by
  refine ⟨rfl, ?_⟩
  intro h
  exact Except.noConfusion h

/-- C7 (amended): a delete request with qualifier `$LATEST` can be
issued, but only when the caller explicitly supplies
`function_version="$LATEST"` and the fetched set contains a `$LATEST`
entry (string-equality matching in `check_version_exists` accepts the
synthetic entry); for any other supplied identifier no
`$LATEST`-qualified delete is ever issued. -/
theorem C7_latest_delete_only_when_explicitly_requested
    (pm : ModuleParams) (versions : Option (List VersionEntry))
    (publish : PublishOutcome) (delete : DeleteOutcome)
    (h : (LambdaVersion.run pm versions publish delete).deleteIssued = some "$LATEST") :
    pm.function_version = some "$LATEST" ∧
    ∃ vs, versions = some vs ∧ ∃ e ∈ vs, e.Version = "$LATEST" := by
  rcases versions with _ | vs
  · exfalso
    by_cases hstate : pm.state == "present" <;>
      simp [LambdaVersion.run, hstate] at h
  · by_cases hemp : vs.isEmpty
    · exfalso
      by_cases hstate : pm.state == "present" <;>
        simp [LambdaVersion.run, hemp, hstate] at h
    · by_cases hstate : pm.state == "present"
      · exfalso
        simp [LambdaVersion.run, hemp, hstate] at h
      · have h' : (delete_version pm vs delete).2 = some "$LATEST" := by
          simpa [LambdaVersion.run, hemp, hstate] using h
        rcases hopt : pm.function_version with _ | s
        · exfalso
          unfold delete_version at h'
          rw [hopt] at h'
          simp [truthy] at h'
        · by_cases hs : s = ""
          · exfalso
            subst hs
            unfold delete_version at h'
            rw [hopt] at h'
            simp [truthy] at h'
          · rw [delete_version_eq pm vs delete s hopt hs] at h'
            by_cases hchk : check_version_exists vs s
            · rw [if_pos hchk] at h'
              have hsl : s = "$LATEST" := by
                cases delete <;> simpa using h'
              subst hsl
              refine ⟨rfl, vs, rfl, ?_⟩
              simp only [check_version_exists, List.any_eq_true] at hchk
              obtain ⟨e, he, heq⟩ := hchk
              exact ⟨e, he, by simpa using heq⟩
            · exfalso
              rw [if_neg hchk] at h'
              simp at h'

/-- C7 counterexample: supplying `function_version="$LATEST"` for an
existing function does issue a delete request with qualifier `$LATEST`
(the fetched list always contains the synthetic `$LATEST` entry, and the
existence check matches it by string equality). -/
theorem C7_counterexample_latest_delete_issued :
    (LambdaVersion.run paramsAbsentLatest (some [entPub1, entLatestEq])
        (.ok respSample) .ok).deleteIssued = some "$LATEST" ∧
    (LambdaVersion.run paramsAbsentLatest (some [entPub1, entLatestEq])
        (.ok respSample) .ok).result =
      .ok { changed := true, version := none, msg := none } := ⟨rfl, rfl⟩

/-- C8: on a generic `ClientError` of the remote publish or delete call
the code does halt, but not with the descriptive `fail_json_aws`
message: the publish handler reads the undefined identifier `module`
and the delete handler's message interpolates the undefined identifiers
`function_version`/`function_name`, so both paths raise `NameError`
before any message naming the operation and function is produced. -/
theorem C8_transport_error_hits_undefined_names :
    (LambdaVersion.run paramsPresent (some [entPub1, entLatestNew]) .clientError .ok).result =
      .error (.nameError "module") ∧
    (LambdaVersion.run paramsAbsent3 (some [entPub3, entLatestEq])
        (.ok respSample) .clientError).result =
      .error (.nameError "function_version") := ⟨rfl, rfl⟩

/-- C9 (amended): every version snapshot a `state=present` run returns —
the newly published one (line 236, the remote response with metadata
removed) as well as the existing-latest one of the no-drift branch
(line 239, the entry popped last) — has every field name converted to
snake case and every dict/list value converted recursively, except the
value under the `Environment` key, which both call sites pass through
verbatim (`ignore_list=['Environment']`), so field names nested inside
it keep the remote camel casing. -/
theorem C9_snake_case_except_environment
    (pm : ModuleParams) (delete : DeleteOutcome) (resp : List (String × JVal))
    (vs published : List VersionEntry) (latest : VersionEntry)
    (hstate : pm.state = "present")
    (hperm : vs.Perm (latest :: published))
    (hlat : latest.Version = "$LATEST")
    (hpub : ∀ q ∈ published, q.Version ≠ "$LATEST")
    (hne : published ≠ [])
    (hts : ∀ q ∈ published, q.LastModified.data < "9999-12-31 23:59:59.999999".data) :
    ((∀ q ∈ published, q.LastModified.data < latest.LastModified.data) →
      (LambdaVersion.run pm (some vs) (.ok resp) delete).result =
        .ok { changed := true,
              version := some ((eraseKey resp "ResponseMetadata").map (fun kv =>
                (camel_to_snake kv.1,
                 if kv.1 = "Environment" then kv.2 else snake_value kv.2))),
              msg := none }) ∧
    ((∃ q ∈ published, latest.LastModified.data ≤ q.LastModified.data) →
      ∀ publish, (LambdaVersion.run pm (some vs) publish delete).result =
        .ok { changed := false,
              version := some (latest.toDict.map (fun kv =>
                (camel_to_snake kv.1,
                 if kv.1 = "Environment" then kv.2 else snake_value kv.2))),
              msg := none }) := by
  obtain ⟨m, hmem, hmax, hcv⟩ := create_version_pops hperm hlat hpub hne hts
  have hvs_ne : vs ≠ [] := by
    intro h
    rw [h] at hperm
    simpa using hperm.length_eq
  constructor
  · intro hnew
    have hlt := hnew m hmem
    rw [run_present_eq pm vs (.ok resp) delete hstate hvs_ne]
    show (create_version pm vs (.ok resp)).1 = _
    rw [hcv pm (.ok resp), create_version_body_ok pm resp latest m hlt]
    rw [camel_dict_to_snake_dict_eq_map]
    simp only [List.mem_singleton]
  · rintro ⟨q, hq, hle⟩ publish
    have hnot : ¬ m.LastModified.data < latest.LastModified.data :=
      not_lt.mpr (le_trans hle (hmax q hq))
    rw [run_present_eq pm vs publish delete hstate hvs_ne]
    show (create_version pm vs publish).1 = _
    rw [hcv pm publish, create_version_body_stale pm publish latest m hnot]
    rw [camel_dict_to_snake_dict_eq_map]
    simp only [List.mem_singleton]

/-- C9 counterexample: on a response whose `Environment` value nests the
camel-cased key `Variables`, the returned snapshot keeps that nested
field name unconverted, refuting "applied to every nested field of the
structure" (contrast `TracingConfig`, whose nested `Mode` is
converted). -/
theorem C9_counterexample_environment_not_converted :
    (LambdaVersion.run paramsPresent (some [entPub1, entLatestNew])
        (.ok respSample) .ok).result =
      .ok { changed := true,
            version := some (camel_dict_to_snake_dict
              (eraseKey respSample "ResponseMetadata") ["Environment"]),
            msg := none } ∧
    ("environment", JVal.dict [("Variables", JVal.dict [("MY_VAR", JVal.str "my_value")])]) ∈
      camel_dict_to_snake_dict (eraseKey respSample "ResponseMetadata") ["Environment"] ∧
    camel_to_snake "Variables" = "variables" ∧
    ("Variables" : String) ≠ "variables" := by
  refine ⟨rfl, ?_, rfl, by decide⟩
  show _ ∈ ([("function_name", JVal.str "MyFunction"),
    ("code_sha256", JVal.str "fNGeOhSxAjcYuNyGJaC8XbYFghjTXjpUuLttdt5xkPk="),
    ("version", JVal.str "2"),
    ("environment", JVal.dict [("Variables", JVal.dict [("MY_VAR", JVal.str "my_value")])]),
    ("tracing_config", JVal.dict [("mode", JVal.str "PassThrough")])] : List (String × JVal))
  exact List.mem_cons_of_mem _ (List.mem_cons_of_mem _ (List.mem_cons_of_mem _
    (List.mem_cons_self _ _)))

/-- C10: a `state=present` run on a list holding only the `$LATEST`
entry (never-published function): the sort leaves one element, the first
pop takes it, and the second pop is performed on an empty list, so the
run ends in an uncaught `IndexError` — no publish request is issued and
no result is returned. -/
theorem C10_single_latest_entry_index_error
    (pm : ModuleParams) (e : VersionEntry)
    (publish : PublishOutcome) (delete : DeleteOutcome)
    (hstate : pm.state = "present") (_hlat : e.Version = "$LATEST") :
    (LambdaVersion.run pm (some [e]) publish delete).result = .error .indexError ∧
    (LambdaVersion.run pm (some [e]) publish delete).publishIssued = none := by
  rw [run_present_eq pm [e] publish delete hstate (List.cons_ne_nil e [])]
  exact ⟨rfl, rfl⟩

/-- C1 instantiated: one published version `"1"` and a strictly newer
`$LATEST`. -/
theorem C1_witness :
    (paramsPresent.state = "present" ∧
     ([entLatestNew, entPub1] : List VersionEntry).Perm (entLatestNew :: [entPub1]) ∧
     entLatestNew.Version = "$LATEST" ∧
     (∀ q ∈ [entPub1], q.Version ≠ "$LATEST") ∧
     ([entPub1] : List VersionEntry) ≠ [] ∧
     (∀ q ∈ [entPub1], q.LastModified.data < "9999-12-31 23:59:59.999999".data)) ∧
    ∃ m ∈ [entPub1],
      (∀ q ∈ [entPub1], q.LastModified.data ≤ m.LastModified.data) ∧
      ((LambdaVersion.run paramsPresent (some [entLatestNew, entPub1])
          (.ok respSample) .ok).publishIssued.isSome ↔
        m.LastModified.data < entLatestNew.LastModified.data) ∧
      (∀ resp, PublishOutcome.ok respSample = .ok resp →
        m.LastModified.data < entLatestNew.LastModified.data →
        (LambdaVersion.run paramsPresent (some [entLatestNew, entPub1])
            (.ok respSample) .ok).result =
          .ok { changed := true,
                version := some (camel_dict_to_snake_dict
                  (eraseKey resp "ResponseMetadata") ["Environment"]),
                msg := none }) :=
  ⟨⟨rfl, List.Perm.refl _, rfl, by decide, List.cons_ne_nil _ _, by decide⟩,
   C1_publish_iff_latest_strictly_newer paramsPresent (.ok respSample) .ok
     [entLatestNew, entPub1] [entPub1] entLatestNew rfl (List.Perm.refl _) rfl
     (by decide) (List.cons_ne_nil _ _) (by decide)⟩

/-- C2 (amended) instantiated: published `"1"` and `$LATEST` with equal
timestamps. -/
theorem C2_witness :
    (paramsPresent.state = "present" ∧
     ([entLatestEq, entPub1] : List VersionEntry).Perm (entLatestEq :: [entPub1]) ∧
     entLatestEq.Version = "$LATEST" ∧
     (∀ q ∈ [entPub1], q.Version ≠ "$LATEST") ∧
     ([entPub1] : List VersionEntry) ≠ [] ∧
     (∀ q ∈ [entPub1], q.LastModified.data < "9999-12-31 23:59:59.999999".data) ∧
     (∃ q ∈ [entPub1], entLatestEq.LastModified.data ≤ q.LastModified.data)) ∧
    ((LambdaVersion.run paramsPresent (some [entLatestEq, entPub1])
        (.ok respSample) .ok).publishIssued = none ∧
     (LambdaVersion.run paramsPresent (some [entLatestEq, entPub1])
        (.ok respSample) .ok).result =
       .ok { changed := false,
             version := some (camel_dict_to_snake_dict entLatestEq.toDict ["Environment"]),
             msg := none }) :=
  ⟨⟨rfl, List.Perm.refl _, rfl, by decide, List.cons_ne_nil _ _, by decide, by decide⟩,
   C2_stale_returns_latest_entry_snapshot paramsPresent (.ok respSample) .ok
     [entLatestEq, entPub1] [entPub1] entLatestEq rfl (List.Perm.refl _) rfl
     (by decide) (List.cons_ne_nil _ _) (by decide) (by decide)⟩

/-- C3 instantiated: published `"1"`, strictly newer `$LATEST`, and the
two guard failures of the publish call. -/
theorem C3_witness :
    (paramsPresent.state = "present" ∧
     ([entLatestNew, entPub1] : List VersionEntry).Perm (entLatestNew :: [entPub1]) ∧
     entLatestNew.Version = "$LATEST" ∧
     (∀ q ∈ [entPub1], q.Version ≠ "$LATEST") ∧
     ([entPub1] : List VersionEntry) ≠ [] ∧
     (∀ q ∈ [entPub1], q.LastModified.data < "9999-12-31 23:59:59.999999".data) ∧
     (∀ q ∈ [entPub1], q.LastModified.data < entLatestNew.LastModified.data)) ∧
    ((LambdaVersion.run paramsPresent (some [entLatestNew, entPub1])
        .preconditionFailed .ok).result =
       .ok { changed := false, version := none,
             msg := some "revision_id does not match $LATEST" } ∧
     (LambdaVersion.run paramsPresent (some [entLatestNew, entPub1])
        .invalidParameterValue .ok).result =
       .ok { changed := false, version := none,
             msg := some "code_sha_256 does not match $LATEST" }) :=
  ⟨⟨rfl, List.Perm.refl _, rfl, by decide, List.cons_ne_nil _ _, by decide, by decide⟩,
   C3_guard_mismatch_is_soft_noop paramsPresent .ok
     [entLatestNew, entPub1] [entPub1] entLatestNew rfl (List.Perm.refl _) rfl
     (by decide) (List.cons_ne_nil _ _) (by decide) (by decide)⟩

/-- C4 instantiated: `state=absent` asking for version `"3"` on a list
that contains it. -/
theorem C4_witness :
    (paramsAbsent3.state = "absent" ∧
     ([entPub3, entLatestEq] : List VersionEntry) ≠ [] ∧
     paramsAbsent3.function_version = some "3" ∧ ("3" : String) ≠ "") ∧
    ((check_version_exists [entPub3, entLatestEq] "3" = false →
       ∀ delete, LambdaVersion.run paramsAbsent3 (some [entPub3, entLatestEq])
           (.ok respSample) delete =
         { result := .ok { changed := false, version := none, msg := none },
           publishIssued := none, deleteIssued := none }) ∧
     (check_version_exists [entPub3, entLatestEq] "3" = true →
       (LambdaVersion.run paramsAbsent3 (some [entPub3, entLatestEq])
           (.ok respSample) .ok).result =
         .ok { changed := true, version := none, msg := none } ∧
       (LambdaVersion.run paramsAbsent3 (some [entPub3, entLatestEq])
           (.ok respSample) .ok).deleteIssued = some "3")) :=
  ⟨⟨rfl, List.cons_ne_nil _ _, rfl, by decide⟩,
   C4_absent_delete_idempotent paramsAbsent3 [entPub3, entLatestEq]
     (.ok respSample) "3" rfl (List.cons_ne_nil _ _) rfl (by decide)⟩

/-- C5 instantiated: no fetched versions at all
(`ResourceNotFoundException` path). -/
theorem C5_witness :
    ((none : Option (List VersionEntry)) = none ∨
      (none : Option (List VersionEntry)) = some []) ∧
    ((paramsAbsentNone.state = "present" →
       (LambdaVersion.run paramsAbsentNone none (.ok respSample) .ok).result =
         .error (.failJson ("Cannot create a version for function " ++
           paramsAbsentNone.function_name ++ ".  Function does not exist."))) ∧
     (paramsAbsentNone.state = "absent" →
       LambdaVersion.run paramsAbsentNone none (.ok respSample) .ok =
         { result := .ok { changed := false, version := none, msg := none },
           publishIssued := none, deleteIssued := none })) :=
  ⟨Or.inl rfl,
   C5_no_versions_dispatch paramsAbsentNone (.ok respSample) .ok none (Or.inl rfl)⟩

/-- C6 (amended) instantiated: `state=absent`, no `function_version`,
function exists. -/
theorem C6_witness :
    (paramsAbsentNone.state = "absent" ∧
     ([entPub1, entLatestEq] : List VersionEntry) ≠ [] ∧
     truthy paramsAbsentNone.function_version = false) ∧
    (LambdaVersion.run paramsAbsentNone (some [entPub1, entLatestEq])
        (.ok respSample) .ok).result =
      .error (.failJson "Cannot delete a version without function_version parameter") :=
  ⟨⟨rfl, List.cons_ne_nil _ _, rfl⟩,
   C6_missing_parameter_fails_when_function_exists paramsAbsentNone
     [entPub1, entLatestEq] (.ok respSample) .ok rfl (List.cons_ne_nil _ _) rfl⟩

/-- C7 (amended) instantiated: the `$LATEST`-qualified delete request of
the counterexample run indeed comes from an explicit
`function_version="$LATEST"`. -/
theorem C7_witness :
    (LambdaVersion.run paramsAbsentLatest (some [entPub1, entLatestEq])
        (.ok respSample) .clientError).deleteIssued = some "$LATEST" ∧
    (paramsAbsentLatest.function_version = some "$LATEST" ∧
     ∃ vs, (some [entPub1, entLatestEq] : Option (List VersionEntry)) = some vs ∧
       ∃ e ∈ vs, e.Version = "$LATEST") :=
  ⟨rfl,
   C7_latest_delete_only_when_explicitly_requested paramsAbsentLatest
     (some [entPub1, entLatestEq]) (.ok respSample) .clientError rfl⟩

/-- C9 (amended) instantiated: the sample response with a nested
`Environment.Variables` dict; the conclusion covers both snapshot
paths. -/
theorem C9_witness :
    (paramsPresent.state = "present" ∧
     ([entLatestNew, entPub1] : List VersionEntry).Perm (entLatestNew :: [entPub1]) ∧
     entLatestNew.Version = "$LATEST" ∧
     (∀ q ∈ [entPub1], q.Version ≠ "$LATEST") ∧
     ([entPub1] : List VersionEntry) ≠ [] ∧
     (∀ q ∈ [entPub1], q.LastModified.data < "9999-12-31 23:59:59.999999".data)) ∧
    (((∀ q ∈ [entPub1], q.LastModified.data < entLatestNew.LastModified.data) →
       (LambdaVersion.run paramsPresent (some [entLatestNew, entPub1])
           (.ok respSample) .ok).result =
         .ok { changed := true,
               version := some ((eraseKey respSample "ResponseMetadata").map (fun kv =>
                 (camel_to_snake kv.1,
                  if kv.1 = "Environment" then kv.2 else snake_value kv.2))),
               msg := none }) ∧
     ((∃ q ∈ [entPub1], entLatestNew.LastModified.data ≤ q.LastModified.data) →
       ∀ publish, (LambdaVersion.run paramsPresent (some [entLatestNew, entPub1])
           publish .ok).result =
         .ok { changed := false,
               version := some (entLatestNew.toDict.map (fun kv =>
                 (camel_to_snake kv.1,
                  if kv.1 = "Environment" then kv.2 else snake_value kv.2))),
               msg := none })) :=
  ⟨⟨rfl, List.Perm.refl _, rfl, by decide, List.cons_ne_nil _ _, by decide⟩,
   C9_snake_case_except_environment paramsPresent .ok respSample
     [entLatestNew, entPub1] [entPub1] entLatestNew rfl (List.Perm.refl _) rfl
     (by decide) (List.cons_ne_nil _ _) (by decide)⟩

/-- C10 instantiated: a version list holding only the `$LATEST` entry. -/
theorem C10_witness :
    (paramsPresent.state = "present" ∧ entLatestEq.Version = "$LATEST") ∧
    ((LambdaVersion.run paramsPresent (some [entLatestEq]) .clientError .ok).result =
       .error .indexError ∧
     (LambdaVersion.run paramsPresent (some [entLatestEq]) .clientError .ok).publishIssued =
       none) :=
  ⟨⟨rfl, rfl⟩,
   C10_single_latest_entry_index_error paramsPresent entLatestEq .clientError .ok rfl rfl⟩
